import Mathlib

/-!
Verification development for the Newton controller, the intensive-quantity
cache and the residual assembly engine of the opm-models repository.

The embedding is shallow: the C++ `Scalar` (a floating-point type) is
modelled by `ℚ`, so all algebraic identities are exact; machine integers
(`int`) are modelled by `ℤ`.  Each definition below mirrors one member
function of `NewtonControllerBase` / `NewtonController` (newtoncontroller
header) or of `FvBaseDiscretization` (fvbasediscretization.hh), keeping the
source's control flow, guards and update order.
-/

/-- The mutable state of `NewtonControllerBase` (its scalar and integer data
members).  `_method` and the solution vector are external collaborators; the
quantities the controller reads from them (`deflectionTwoNorm()`,
`_physicalness(u)`, `(*u).two_norm()`) are passed as explicit arguments to
the operations below. -/
structure NewtonControllerState where
  tolerance : ℚ
  maxPhysicalness : ℚ
  curPhysicalness : ℚ
  oneByMagnitude : ℚ
  probationCount : ℤ
  targetSteps : ℤ
  maxSteps : ℤ
  numSteps : ℤ
deriving Repr, DecidableEq

/-- The constructor `NewtonControllerBase(tolerance, targetSteps, maxSteps)`.
It asserts `maxSteps > targetSteps + 3`; the assertion is modelled by
returning `none` when it fails.  The C++ constructor leaves
`_probationCount`, `_oneByMagnitude` and `_method` uninitialized; the model
fills the two scalars with 0 (no claim depends on them before `newtonBegin`
sets them). -/
def mkNewtonControllerBase (tolerance : ℚ) (targetSteps maxSteps : ℤ) :
    Option NewtonControllerState :=
  if maxSteps > targetSteps + 3 then
    some { tolerance := tolerance
           maxPhysicalness := 0
           curPhysicalness := 0
           oneByMagnitude := 0
           probationCount := 0
           targetSteps := targetSteps
           maxSteps := maxSteps
           numSteps := 0 }
  else
    none

/-- The derived-class constructor `NewtonController(tolerance = 1e-5,
targetSteps = 8, maxSteps = 12)` with all arguments left at their default
values; it just forwards to `NewtonControllerBase`. -/
def mkNewtonControllerDefault : Option NewtonControllerState :=
  mkNewtonControllerBase (1/100000) 8 12

/-- `newtonBegin(method, u)`: resets the counters and physicalness trackers
and sets `_oneByMagnitude = 1.0 / max((*u).two_norm(), 1e-5)`.  The norm of
the initial iterate is passed in as `uTwoNorm`. -/
def newtonBegin (s : NewtonControllerState) (uTwoNorm : ℚ) : NewtonControllerState :=
  { s with numSteps := 0
           probationCount := 0
           maxPhysicalness := 0
           curPhysicalness := 0
           oneByMagnitude := 1 / max uTwoNorm (1/100000) }

/-- `newtonConverged()`: true iff
`_method->deflectionTwoNorm() * _oneByMagnitude <= _tolerance` and
`_curPhysicalness >= 1.0`.  The deflection norm is read from the external
`_method` collaborator and is passed in as `deflectionTwoNorm`. -/
def newtonConverged (s : NewtonControllerState) (deflectionTwoNorm : ℚ) : Bool :=
  decide (deflectionTwoNorm * s.oneByMagnitude ≤ s.tolerance) &&
    decide (s.curPhysicalness ≥ 1)

/-- `newtonProceed(u)`: decides whether another Newton iteration is run and
updates `_curPhysicalness`, `_maxPhysicalness` and `_probationCount` in the
process.  The externally computed `_asImp()._physicalness(u)` is passed in
as `physicalness`, the deflection norm (used by the embedded
`newtonConverged()` call) as `deflectionTwoNorm`.  Returns the decision
together with the updated state. -/
def newtonProceed (s : NewtonControllerState) (deflectionTwoNorm physicalness : ℚ) :
    Bool × NewtonControllerState :=
  if s.numSteps < 2 then (true, s)
  else if s.numSteps > s.maxSteps then (false, s)
  else if newtonConverged s deflectionTwoNorm then (false, s)
  else
    let cur := min physicalness 1
    let s1 := { s with curPhysicalness := cur }
    if cur ≤ 0 then (false, s1)
    else if cur < (s1.numSteps : ℚ) / ((s1.maxSteps : ℚ) - 1) then (false, s1)
    else if cur < s1.maxPhysicalness then
      if s1.probationCount > 1 then (false, s1)
      else (true, { s1 with probationCount := s1.probationCount + 1 })
    else
      (true, { s1 with maxPhysicalness := cur
                       probationCount := min 0 (s1.probationCount - 1) })

/-- `newtonEndStep(u, uOld)`: increments `_numSteps` and records the new
physicalness of the iterate (the diagnostic output is omitted). -/
def newtonEndStep (s : NewtonControllerState) (physicalness : ℚ) : NewtonControllerState :=
  { s with numSteps := s.numSteps + 1
           curPhysicalness := physicalness }

/-- `newtonFail()`: forces `_numSteps = _targetSteps * 2` so that the next
step-size suggestion shrinks aggressively. -/
def newtonFail (s : NewtonControllerState) : NewtonControllerState :=
  { s with numSteps := s.targetSteps * 2 }

/-- `suggestTimeStepSize(oldTimeStep)`: shrink by `1/(1+percent)` when
`_numSteps > _targetSteps`, else grow by `(1 + percent/1.2)`, where
`percent` is the relative distance of `_numSteps` from `_targetSteps`. -/
def suggestTimeStepSize (s : NewtonControllerState) (oldTimeStep : ℚ) : ℚ :=
  if s.numSteps > s.targetSteps then
    let percent : ℚ := ((s.numSteps : ℚ) - (s.targetSteps : ℚ)) / (s.targetSteps : ℚ)
    oldTimeStep / (1 + percent)
  else
    let percent : ℚ := ((s.targetSteps : ℚ) - (s.numSteps : ℚ)) / (s.targetSteps : ℚ)
    oldTimeStep * (1 + percent / (6/5))

/-- Controller state reached when the default-configured controller
(tolerance 1e-5, targetSteps 8, maxSteps 12) stops its Newton loop after
step 3 with a fully physical, converged iterate. -/
def controllerStoppedAtStepThree : NewtonControllerState :=
  { tolerance := 1/100000
    maxPhysicalness := 1
    curPhysicalness := 1
    oneByMagnitude := 1
    probationCount := 0
    targetSteps := 8
    maxSteps := 12
    numSteps := 3 }

/-- Controller state on iteration 5 of a maxSteps = 12 run, just before the
`newtonProceed` call in which physicalness regresses from the maximum 0.9
seen so far; no probation has been incurred yet. -/
def regressionAtStepFive : NewtonControllerState :=
  { tolerance := 1/100000
    maxPhysicalness := 9/10
    curPhysicalness := 1/2
    oneByMagnitude := 1
    probationCount := 0
    targetSteps := 8
    maxSteps := 12
    numSteps := 5 }

/-- Controller state one iteration later (iteration 6): the first
regression already put the controller on probation (`_probationCount = 1`)
and physicalness is again below the maximum 0.9 seen so far. -/
def regressionAtStepSix : NewtonControllerState :=
  { tolerance := 1/100000
    maxPhysicalness := 9/10
    curPhysicalness := 1/2
    oneByMagnitude := 1
    probationCount := 1
    targetSteps := 8
    maxSteps := 12
    numSteps := 6 }

/-- The static configuration of the intensive-quantity cache of
`FvBaseDiscretization`: the two boolean runtime parameters
`EnableIntensiveQuantityCache` and `EnableThermodynamicHints` (read by
`enableIntensiveQuantitiesCache_()` and `enableThermodynamicHints_()`), and
the compile-time constant `historySize` of the time discretization. -/
structure CacheConfig where
  enableIntensiveQuantitiesCache : Bool
  enableThermodynamicHints : Bool
  historySize : Nat
deriving Repr, DecidableEq

/-- `storeIntensiveQuantities_()`: intensive quantities are stored iff the
cache or the thermodynamic hints are enabled. -/
def storeIntensiveQuantities (cfg : CacheConfig) : Bool :=
  cfg.enableIntensiveQuantitiesCache || cfg.enableThermodynamicHints

/-- The mutable cache state of `FvBaseDiscretization`: the array
`intensiveQuantityCache_` of one value vector per time index, and the
parallel validity array `intensiveQuantityCacheUpToDate_`.  The value type
`V` (`IntensiveQuantities`) is opaque. -/
structure IntensiveQuantityCacheState (V : Type) where
  cache : List (List V)
  upToDate : List (List Bool)

/-- Read entry `xss[i][j]`, with the given default when out of range (the
C++ indexes unconditionally; the claims only exercise in-range indices). -/
def getEntry {A : Type} (xss : List (List A)) (i j : Nat) (dflt : A) : A :=
  (xss.getD i []).getD j dflt

/-- Write entry `xss[i][j] := v` (no-op when out of range, as `List.set`). -/
def setEntry {A : Type} (xss : List (List A)) (i j : Nat) (v : A) : List (List A) :=
  xss.set i ((xss.getD i []).set j v)

/-- `cachedIntensiveQuantities(globalIdx, timeIdx)`: returns the cached
value only when the cache is enabled and the entry is up to date, else a
null pointer (modelled as `none`). -/
def cachedIntensiveQuantities {V : Type} (cfg : CacheConfig)
    (s : IntensiveQuantityCacheState V) (globalIdx timeIdx : Nat) : Option V :=
  if !cfg.enableIntensiveQuantitiesCache ||
      !getEntry s.upToDate timeIdx globalIdx false then
    none
  else
    (s.cache.getD timeIdx []).get? globalIdx

/-- `thermodynamicHint(globalIdx, timeIdx)`: null when hints are disabled;
the entry itself when it is up to date; otherwise the value of the first
up-to-date time index (scanning `timeIdx2 = 0, 1, ...` over the history),
or null when every slot is stale for that degree of freedom. -/
def thermodynamicHint {V : Type} (cfg : CacheConfig)
    (s : IntensiveQuantityCacheState V) (globalIdx timeIdx : Nat) : Option V :=
  if !cfg.enableThermodynamicHints then
    none
  else if getEntry s.upToDate timeIdx globalIdx false then
    (s.cache.getD timeIdx []).get? globalIdx
  else
    match (List.range cfg.historySize).find?
        (fun timeIdx2 => getEntry s.upToDate timeIdx2 globalIdx false) with
    | some timeIdx2 => (s.cache.getD timeIdx2 []).get? globalIdx
    | none => none

/-- `updateCachedIntensiveQuantities(intQuants, globalIdx, timeIdx)`: a
no-op when intensive quantities are not stored; otherwise writes the value
and marks the entry up to date. -/
def updateCachedIntensiveQuantities {V : Type} (cfg : CacheConfig)
    (s : IntensiveQuantityCacheState V) (intQuants : V) (globalIdx timeIdx : Nat) :
    IntensiveQuantityCacheState V :=
  if !storeIntensiveQuantities cfg then s
  else
    { cache := setEntry s.cache timeIdx globalIdx intQuants
      upToDate := setEntry s.upToDate timeIdx globalIdx true }

/-- `setIntensiveQuantitiesCacheEntryValidity(globalIdx, timeIdx, newValue)`:
a no-op when intensive quantities are not stored; otherwise force-sets the
validity flag of the entry, leaving the value untouched. -/
def setIntensiveQuantitiesCacheEntryValidity {V : Type} (cfg : CacheConfig)
    (s : IntensiveQuantityCacheState V) (globalIdx timeIdx : Nat) (newValue : Bool) :
    IntensiveQuantityCacheState V :=
  if !storeIntensiveQuantities cfg then s
  else
    { s with upToDate := setEntry s.upToDate timeIdx globalIdx newValue }

/-- `shiftIntensiveQuantityCache(numSlots)`: a no-op when intensive
quantities are not stored; otherwise performs, for `timeIdx` increasing
from 0 to `historySize - numSlots - 1`, the in-place assignments
`cache[timeIdx + numSlots] := cache[timeIdx]` (and the same for the
validity array), then marks every entry of slot 0 stale.  The fold mirrors
the sequential in-place loop of the source, in which a later iteration
reads a slot a previous iteration may already have overwritten. -/
def shiftIntensiveQuantityCache {V : Type} (cfg : CacheConfig)
    (s : IntensiveQuantityCacheState V) (numSlots : Nat) :
    IntensiveQuantityCacheState V :=
  if !storeIntensiveQuantities cfg then s
  else
    let s1 := (List.range (cfg.historySize - numSlots)).foldl
      (fun (st : IntensiveQuantityCacheState V) (timeIdx : Nat) =>
        { cache := st.cache.set (timeIdx + numSlots) (st.cache.getD timeIdx [])
          upToDate := st.upToDate.set (timeIdx + numSlots) (st.upToDate.getD timeIdx []) })
      s
    { s1 with upToDate :=
        s1.upToDate.set 0 (List.replicate (s1.upToDate.getD 0 []).length false) }

/-- `resizeAndResetIntensiveQuantitiesCache_()`: when intensive quantities
are stored, resizes the value and validity vectors of every time index to
the current number of grid degrees of freedom (`resize` keeps the prefix
and default-fills any extension, hence the default value `dflt`) and then
fills the whole validity vector with `false`; otherwise does nothing. -/
def resizeAndResetIntensiveQuantitiesCache {V : Type} (cfg : CacheConfig) (dflt : V)
    (s : IntensiveQuantityCacheState V) (nDofs : Nat) :
    IntensiveQuantityCacheState V :=
  if storeIntensiveQuantities cfg then
    { cache := (List.range cfg.historySize).foldl
        (fun c timeIdx => c.set timeIdx
          ((c.getD timeIdx []).take nDofs ++
            List.replicate (nDofs - (c.getD timeIdx []).length) dflt))
        s.cache
      upToDate := (List.range cfg.historySize).foldl
        (fun c timeIdx => c.set timeIdx (List.replicate nDofs false))
        s.upToDate }
  else s

/-- One mesh element as seen by the element loop of `globalResidual`:
whether `elem.partitionType() == Dune::InteriorEntity`, and the local
residual contributions the injected local-residual evaluator
(`localResidual(threadId).eval`) produces for it, as (global DOF index,
value) pairs obtained through `elemCtx.globalSpaceIndex`; the per-equation
components of a DOF are modelled inside the per-DOF scalar. -/
structure AssemblyElement where
  interior : Bool
  contribs : List (Nat × ℚ)

/-- The per-element merge of the loop body (the short critical section):
`dest[globalI][eqIdx] += residual[dofIdx][eqIdx]` for every local DOF of
the element. -/
def addElementContribs (dest : List ℚ) (cs : List (Nat × ℚ)) : List ℚ :=
  cs.foldl (fun d c => d.set c.1 (d.getD c.1 0 + c.2)) dest

/-- The local part of `globalResidual(dest)`: `dest = 0` zeroes the output
(keeping its size), then the element loop skips every element whose
partition type is not interior and accumulates every interior element's
local residual additively.  The OpenMP decomposition only changes the
order in which whole elements pass the merge lock; the sequential fold
models the 1-thread fallback and any fixed merge order. -/
def globalResidualAssemble (elems : List AssemblyElement) (dest : List ℚ) : List ℚ :=
  elems.foldl
    (fun d e => if e.interior then addElementContribs d e.contribs else d)
    (dest.map (fun _ => (0 : ℚ)))

/-- The distributed residual after the per-process element loops of
`globalResidual`: `present p d` says whether DOF `d` exists in process
`p`'s `dest` vector (interior DOFs on exactly their owning process, border
DOFs on every process sharing them), and `contrib p d` is process `p`'s
locally assembled partial value for `d` (0 where absent).  The
`gridView.communicate(sumHandle, ...)` collective sums the partial values
of each DOF over all processes holding it and leaves the reduced value in
every such process's vector; `comm().sum` adds one scalar per process.
Both collectives are external Dune collaborators; the model gives them the
summation semantics the source relies on. -/
structure DistributedResidual where
  numProcs : Nat
  numDofs : Nat
  present : Nat → Nat → Bool
  contrib : Nat → Nat → ℚ

/-- The cross-process-reduced residual value of one DOF (the content of
every sharing process's `dest` entry after the communicate step). -/
def reducedResidual (R : DistributedResidual) (d : Nat) : ℚ :=
  ∑ p in Finset.range R.numProcs, R.contrib p d

/-- `dest.two_norm2()` on process `p` after the communicate step. -/
def processTwoNorm2 (R : DistributedResidual) (p : Nat) : ℚ :=
  ∑ d in Finset.range R.numDofs,
    if R.present p d then (reducedResidual R d) ^ 2 else 0

/-- `result2 = gridView.comm().sum(dest.two_norm2())`: the square of the
scalar `globalResidual` returns (the source returns `sqrt(result2)`;
squares are compared here, which is exact in ℚ and, both quantities being
nonnegative, equivalent to comparing the returned square roots). -/
def globalResidualNormSq (R : DistributedResidual) : ℚ :=
  ∑ p in Finset.range R.numProcs, processTwoNorm2 R p

/-- Modelled from the spec: the square of the "Euclidean norm of the
cross-process-reduced residual" that the claim says the computation
returns, each DOF's reduced value counted exactly once. -/
def reducedEuclideanNormSq (R : DistributedResidual) : ℚ :=
  ∑ d in Finset.range R.numDofs, (reducedResidual R d) ^ 2

/-- The number of processes on whose residual vector DOF `d` is present. -/
def dofMultiplicity (R : DistributedResidual) (d : Nat) : Nat :=
  ((Finset.range R.numProcs).filter (fun p => R.present p d = true)).card

/-- C10: the `NewtonControllerBase` constructor carries the unstated
precondition `maxSteps > targetSteps + 3`, enforced by its assertion: the
constructor succeeds iff `targetSteps + 3 < maxSteps`; the default
configuration (tolerance 1e-5, targetSteps 8, maxSteps 12) satisfies it and
does so exactly at the margin (`maxSteps = 11` would already fail); and
every configuration with `maxSteps ≤ targetSteps + 3` violates it. -/
theorem mkNewtonControllerBase_assertion (tolerance : ℚ) (targetSteps maxSteps : ℤ) :
    ((mkNewtonControllerBase tolerance targetSteps maxSteps).isSome ↔
      targetSteps + 3 < maxSteps) ∧
    mkNewtonControllerDefault.isSome = true ∧
    mkNewtonControllerBase tolerance 8 11 = none ∧
    (maxSteps ≤ targetSteps + 3 →
      mkNewtonControllerBase tolerance targetSteps maxSteps = none) := by
  refine ⟨?_, ?_, ?_, ?_⟩
  · unfold mkNewtonControllerBase
    split <;> simp_all
  · decide
  · unfold mkNewtonControllerBase
    rw [if_neg (by omega)]
  · intro h
    unfold mkNewtonControllerBase
    rw [if_neg (by omega)]

/-- Witness for C10: a configuration with `maxSteps ≤ targetSteps + 3`
(here targetSteps 5, maxSteps 8) makes the constructor's assertion fail. -/
theorem mkNewtonControllerBase_assertion_witness :
    (8 : ℤ) ≤ 5 + 3 ∧ mkNewtonControllerBase 1 5 8 = none :=
  ⟨by decide, (mkNewtonControllerBase_assertion 1 5 8).2.2.2 (by decide)⟩

/-- C5: `newtonConverged()` is true iff the normalized deflection norm is
at most the tolerance and the current physicalness is at least 1; in
particular the controller never reports convergence while the current
physicalness is below 1. -/
theorem newtonConverged_iff (s : NewtonControllerState) (deflectionTwoNorm : ℚ) :
    (newtonConverged s deflectionTwoNorm = true ↔
      deflectionTwoNorm * s.oneByMagnitude ≤ s.tolerance ∧ 1 ≤ s.curPhysicalness) ∧
    (s.curPhysicalness < 1 → newtonConverged s deflectionTwoNorm = false) := by
  constructor
  · simp [newtonConverged, ge_iff_le]
  · intro h
    simp only [newtonConverged, Bool.and_eq_false_iff, decide_eq_false_iff_not, ge_iff_le]
    exact Or.inr (not_le.mpr h)

/-- Witness for C5: a state with physicalness 1/2 < 1 is never reported
converged, even with a zero deflection norm. -/
theorem newtonConverged_iff_witness :
    regressionAtStepFive.curPhysicalness < 1 ∧
    newtonConverged regressionAtStepFive 0 = false :=
  ⟨by norm_num [regressionAtStepFive],
   (newtonConverged_iff regressionAtStepFive 0).2 (by norm_num [regressionAtStepFive])⟩

/-- C2 counterexample: with the default configuration (targetSteps 8,
maxSteps 12) and the loop stopped at step 3, `suggestTimeStepSize(100)`
returns 1825/12 = 152.08,3 — strictly more than 152, hence not
"approximately 141" (the claimed value is off by more than 11, a 7.9
percent error). -/
theorem suggestTimeStepSize_at_three_not_141 :
    suggestTimeStepSize controllerStoppedAtStepThree 100 = 1825/12 ∧
    (152 : ℚ) < 1825/12 ∧ (141 : ℚ) + 11 < 1825/12 := by
  refine ⟨?_, by norm_num, by norm_num⟩
  norm_num [suggestTimeStepSize, controllerStoppedAtStepThree]

/-- C2 (amended): with the default configuration tolerance 1e-5,
targetSteps 8, maxSteps 12, if the Newton loop stops at step 3 then
`suggestTimeStepSize(100)` returns the grown step size
100 × (1 + ((8 − 3)/8)/1.2) = 1825/12 ≈ 152.08 (the claim's "≈ 141"
mis-evaluates its own formula). -/
theorem suggestTimeStepSize_at_three :
    suggestTimeStepSize controllerStoppedAtStepThree 100 =
      100 * (1 + (((8 : ℚ) - 3) / 8) / (6/5)) ∧
    (100 : ℚ) < suggestTimeStepSize controllerStoppedAtStepThree 100 := by
  constructor <;> norm_num [suggestTimeStepSize, controllerStoppedAtStepThree]

/-- C6: `suggestTimeStepSize` is monotone relative to the target step
count: for every positive previous step size (and a positive target, as in
any configuration the constructor accepts with at least two mandatory
iterations), stepping under target grows the suggestion strictly, stepping
over target shrinks it strictly, and hitting the target exactly reproduces
the previous step size. -/
theorem suggestTimeStepSize_monotone (s : NewtonControllerState) (oldTimeStep : ℚ)
    (hold : 0 < oldTimeStep) (htarget : 0 < s.targetSteps) :
    (s.numSteps < s.targetSteps → oldTimeStep < suggestTimeStepSize s oldTimeStep) ∧
    (s.targetSteps < s.numSteps → suggestTimeStepSize s oldTimeStep < oldTimeStep) ∧
    (s.numSteps = s.targetSteps → suggestTimeStepSize s oldTimeStep = oldTimeStep) := by
  have htq : (0 : ℚ) < (s.targetSteps : ℚ) := by exact_mod_cast htarget
  refine ⟨?_, ?_, ?_⟩
  · intro h
    have hnq : (s.numSteps : ℚ) < (s.targetSteps : ℚ) := by exact_mod_cast h
    rw [suggestTimeStepSize, if_neg (by omega)]
    have hp : 0 < ((s.targetSteps : ℚ) - (s.numSteps : ℚ)) / (s.targetSteps : ℚ) :=
      div_pos (by linarith) htq
    nlinarith
  · intro h
    have hnq : (s.targetSteps : ℚ) < (s.numSteps : ℚ) := by exact_mod_cast h
    rw [suggestTimeStepSize, if_pos (by omega)]
    have hp : 0 < ((s.numSteps : ℚ) - (s.targetSteps : ℚ)) / (s.targetSteps : ℚ) :=
      div_pos (by linarith) htq
    exact div_lt_self hold (by linarith)
  · intro h
    rw [suggestTimeStepSize, if_neg (by omega), h]
    simp

/-- Witness for C6: in the default configuration with the loop stopped at
step 3 (below the target 8), the suggestion for a previous step size of 100
is strictly larger than 100. -/
theorem suggestTimeStepSize_monotone_witness :
    (0 : ℚ) < 100 ∧ (0 : ℤ) < controllerStoppedAtStepThree.targetSteps ∧
    controllerStoppedAtStepThree.numSteps < controllerStoppedAtStepThree.targetSteps ∧
    100 < suggestTimeStepSize controllerStoppedAtStepThree 100 :=
  ⟨by norm_num, by decide, by decide,
   (suggestTimeStepSize_monotone controllerStoppedAtStepThree 100 (by norm_num)
     (by decide)).1 (by decide)⟩

/-- C3 counterexample: on iteration 6 with maxSteps 12, after the first
regression put the controller on probation (`_probationCount = 1`), a
second regression below the maximum 0.9 (physicalness 3/5) makes
`_probationCount` reach 2, but `newtonProceed` returns true — the loop
continues instead of stopping and rejecting as the claim states. -/
theorem newtonProceed_second_regression_continues :
    (newtonProceed regressionAtStepSix 1 (3/5)).2.probationCount = 2 ∧
    (newtonProceed regressionAtStepSix 1 (3/5)).1 = true := by
  have h : newtonProceed regressionAtStepSix 1 (3/5) =
      (true, { regressionAtStepSix with curPhysicalness := 3/5, probationCount := 2 }) := by
    rw [newtonProceed]
    rw [if_neg (by decide), if_neg (by decide),
        if_neg (by norm_num [newtonConverged, regressionAtStepSix])]
    norm_num [regressionAtStepSix, min_def]
  rw [h]
  exact ⟨rfl, rfl⟩

/-- C3 (amended): when the (clamped) physicality regresses below
`_maxPhysicalness` while all earlier guards pass (at least two steps done,
step budget not exceeded, not converged, physicality positive and at least
the monotone threshold `numSteps/(maxSteps−1)`), `newtonProceed` stops and
rejects if `_probationCount > 1`, and otherwise increments
`_probationCount` and continues.  Hence in the scenario with maxSteps 12
where physicalness drops from the maximum 0.9 to 0.5 on iteration 5, the
probation counter becomes 1 and the loop continues; on a second regression
the counter reaches 2 and the loop still continues — it stops rejecting
only on a third regression, when the counter already exceeds 1. -/
theorem newtonProceed_regression (s : NewtonControllerState)
    (deflectionTwoNorm physicalness : ℚ)
    (h2 : 2 ≤ s.numSteps) (hmax : s.numSteps ≤ s.maxSteps)
    (hconv : newtonConverged s deflectionTwoNorm = false)
    (hpos : 0 < min physicalness 1)
    (hmono : (s.numSteps : ℚ) / ((s.maxSteps : ℚ) - 1) ≤ min physicalness 1)
    (hreg : min physicalness 1 < s.maxPhysicalness) :
    (1 < s.probationCount →
      newtonProceed s deflectionTwoNorm physicalness =
        (false, { s with curPhysicalness := min physicalness 1 })) ∧
    (s.probationCount ≤ 1 →
      newtonProceed s deflectionTwoNorm physicalness =
        (true, { s with curPhysicalness := min physicalness 1
                        probationCount := s.probationCount + 1 })) := by
  have key : newtonProceed s deflectionTwoNorm physicalness =
      if s.probationCount > 1 then
        (false, { s with curPhysicalness := min physicalness 1 })
      else
        (true, { s with curPhysicalness := min physicalness 1
                        probationCount := s.probationCount + 1 }) := by
    simp only [newtonProceed]
    rw [if_neg (by omega), if_neg (by omega), if_neg (by simp [hconv]),
        if_neg (not_le.mpr hpos), if_neg (not_lt.mpr hmono), if_pos hreg]
  constructor
  · intro hp
    rw [key, if_pos hp]
  · intro hp
    rw [key, if_neg (by omega)]

/-- Witness for C3: on iteration 5 a first regression (physicalness 1/2,
maximum so far 9/10) increments the probation counter to 1 and the loop
continues; on iteration 6 a second regression (physicalness 3/5) raises it
to 2 and the loop still continues. -/
theorem newtonProceed_regression_witness :
    (regressionAtStepFive.probationCount ≤ 1 ∧
      newtonProceed regressionAtStepFive 1 (1/2) =
        (true, { regressionAtStepFive with curPhysicalness := min (1/2) 1
                                           probationCount := regressionAtStepFive.probationCount + 1 })) ∧
    (regressionAtStepSix.probationCount ≤ 1 ∧
      newtonProceed regressionAtStepSix 1 (3/5) =
        (true, { regressionAtStepSix with curPhysicalness := min (3/5) 1
                                          probationCount := regressionAtStepSix.probationCount + 1 })) := by
  constructor
  · exact ⟨by decide,
      (newtonProceed_regression regressionAtStepFive 1 (1/2) (by decide) (by decide)
        (by norm_num [newtonConverged, regressionAtStepFive])
        (by norm_num) (by norm_num [regressionAtStepFive])
        (by norm_num [regressionAtStepFive])).2 (by decide)⟩
  · exact ⟨by decide,
      (newtonProceed_regression regressionAtStepSix 1 (3/5) (by decide) (by decide)
        (by norm_num [newtonConverged, regressionAtStepSix])
        (by norm_num) (by norm_num [regressionAtStepSix])
        (by norm_num [regressionAtStepSix])).2 (by decide)⟩

/-- Helper: reading a just-written list position yields the written value. -/
theorem getD_set_self {A : Type} (l : List A) (i : Nat) (a dflt : A) (h : i < l.length) :
    (l.set i a).getD i dflt = a := by
  simp [List.getD, List.getElem?_set_eq_of_lt _ h]

/-- Helper: writing one list position leaves every other position unchanged. -/
theorem getD_set_ne {A : Type} (l : List A) (i j : Nat) (a dflt : A) (h : i ≠ j) :
    (l.set i a).getD j dflt = l.getD j dflt := by
  simp [List.getD, List.getElem?_set_ne h]

/-- Helper: optional read of a just-written list position. -/
theorem get?_set_self {A : Type} (l : List A) (i : Nat) (a : A) (h : i < l.length) :
    (l.set i a).get? i = some a := by
  simp [List.get?_eq_getElem?, List.getElem?_set_eq_of_lt _ h]

/-- Helper: reading a replicated list. -/
theorem getD_replicate {A : Type} (n i : Nat) (a dflt : A) :
    (List.replicate n a).getD i dflt = if i < n then a else dflt := by
  induction n generalizing i with
  | zero => simp
  | succ m ih =>
    cases i with
    | zero => simp [List.replicate_succ]
    | succ j =>
      rw [List.replicate_succ]
      simp only [List.getD_cons_succ, ih j]
      by_cases h : j < m
      · rw [if_pos h, if_pos (by omega)]
      · rw [if_neg h, if_neg (by omega)]

/-- Helper: after the validity-reset fold of the resize operation, every
slot the fold visited reads back false at every position. -/
theorem resize_validity_fold_false (H n : Nat) (u : List (List Bool)) (t d : Nat)
    (ht : t < H) :
    getEntry ((List.range H).foldl
      (fun c timeIdx => c.set timeIdx (List.replicate n false)) u) t d false = false := by
  induction H generalizing u with
  | zero => omega
  | succ m ih =>
    rw [List.range_succ, List.foldl_append]
    simp only [List.foldl_cons, List.foldl_nil]
    rcases Nat.lt_or_ge t m with hlt | hge
    · unfold getEntry
      rw [getD_set_ne _ m t _ _ (by omega)]
      exact ih u hlt
    · have htm : t = m := by omega
      subst htm
      unfold getEntry
      by_cases hm :
          t < ((List.range t).foldl
            (fun c timeIdx => c.set timeIdx (List.replicate n false)) u).length
      · rw [getD_set_self _ _ _ _ hm, getD_replicate]
        split <;> rfl
      · have hnil : (((List.range t).foldl
            (fun c timeIdx => c.set timeIdx (List.replicate n false)) u).set t
              (List.replicate n false)).getD t ([] : List Bool) = [] :=
          List.getD_eq_default _ _ (by rw [List.length_set]; omega)
        rw [hnil]
        rfl

/-- C4: `updateCachedIntensiveQuantities` stores the value and marks the
entry up to date (for any slot and DOF index within the allocated ranges),
and it is a no-op exactly when storing intensive quantities is disabled,
i.e. when the caching configuration switch
`storeIntensiveQuantities_() = EnableIntensiveQuantityCache ||
EnableThermodynamicHints` is off: with it off every update leaves the
state unchanged, and with it on there is a state the update does change. -/
theorem updateCachedIntensiveQuantities_spec {V : Type} (cfg : CacheConfig)
    (s : IntensiveQuantityCacheState V) (v : V) (globalIdx timeIdx : Nat) :
    (storeIntensiveQuantities cfg = false →
      updateCachedIntensiveQuantities cfg s v globalIdx timeIdx = s) ∧
    (storeIntensiveQuantities cfg = true →
      timeIdx < s.upToDate.length →
      globalIdx < (s.upToDate.getD timeIdx []).length →
      getEntry (updateCachedIntensiveQuantities cfg s v globalIdx timeIdx).upToDate
        timeIdx globalIdx false = true) ∧
    (storeIntensiveQuantities cfg = true →
      timeIdx < s.cache.length →
      globalIdx < (s.cache.getD timeIdx []).length →
      ((updateCachedIntensiveQuantities cfg s v globalIdx timeIdx).cache.getD
        timeIdx []).get? globalIdx = some v) ∧
    (storeIntensiveQuantities cfg = true →
      updateCachedIntensiveQuantities cfg
        ⟨List.replicate (timeIdx+1) (List.replicate (globalIdx+1) v),
         List.replicate (timeIdx+1) (List.replicate (globalIdx+1) false)⟩
        v globalIdx timeIdx ≠
      ⟨List.replicate (timeIdx+1) (List.replicate (globalIdx+1) v),
       List.replicate (timeIdx+1) (List.replicate (globalIdx+1) false)⟩) := by
  refine ⟨?_, ?_, ?_, ?_⟩
  · intro h
    simp [updateCachedIntensiveQuantities, h]
  · intro h h1 h2
    simp only [updateCachedIntensiveQuantities, h, Bool.not_true, Bool.false_eq_true,
      if_false, setEntry, getEntry]
    rw [getD_set_self _ _ _ _ h1, getD_set_self _ _ _ _ h2]
  · intro h h1 h2
    simp only [updateCachedIntensiveQuantities, h, Bool.not_true, Bool.false_eq_true,
      if_false, setEntry]
    rw [getD_set_self _ _ _ _ h1, get?_set_self _ _ _ h2]
  · intro h heq
    have hval := congrArg
      (fun st : IntensiveQuantityCacheState V =>
        getEntry st.upToDate timeIdx globalIdx false) heq
    simp only [updateCachedIntensiveQuantities, h, Bool.not_true, Bool.false_eq_true,
      if_false, setEntry, getEntry] at hval
    simp [getD_replicate, getD_set_self, List.length_replicate, Nat.lt_succ_self] at hval

/-- Witness for C4: an enabled configuration stores and marks an in-range
entry, and a disabled configuration leaves the state unchanged. -/
theorem updateCachedIntensiveQuantities_spec_witness :
    (storeIntensiveQuantities ⟨true, true, 2⟩ = true ∧
      getEntry (updateCachedIntensiveQuantities ⟨true, true, 2⟩
        (⟨[[(3 : ℚ)]], [[false]]⟩ : IntensiveQuantityCacheState ℚ) 5 0 0).upToDate
        0 0 false = true) ∧
    (storeIntensiveQuantities ⟨false, false, 2⟩ = false ∧
      updateCachedIntensiveQuantities ⟨false, false, 2⟩
        (⟨[[(3 : ℚ)]], [[false]]⟩ : IntensiveQuantityCacheState ℚ) 5 0 0 =
        ⟨[[(3 : ℚ)]], [[false]]⟩) :=
  ⟨⟨by decide,
    (updateCachedIntensiveQuantities_spec ⟨true, true, 2⟩ ⟨[[(3 : ℚ)]], [[false]]⟩
      5 0 0).2.1 (by decide) (by decide) (by decide)⟩,
   ⟨by decide,
    (updateCachedIntensiveQuantities_spec ⟨false, false, 2⟩ ⟨[[(3 : ℚ)]], [[false]]⟩
      5 0 0).1 (by decide)⟩⟩

/-- C7: shifting the history by one slot and then resizing to the current
number of degrees of freedom invalidates every cache entry: a subsequent
`cachedIntensiveQuantities` read on any history slot and any DOF index
misses (returns the null pointer). -/
theorem cachedIntensiveQuantities_miss_after_shift_resize {V : Type} (cfg : CacheConfig)
    (dflt : V) (s : IntensiveQuantityCacheState V) (n timeIdx globalIdx : Nat)
    (ht : timeIdx < cfg.historySize) :
    cachedIntensiveQuantities cfg
      (resizeAndResetIntensiveQuantitiesCache cfg dflt
        (shiftIntensiveQuantityCache cfg s 1) n)
      globalIdx timeIdx = none := by
  by_cases hstore : storeIntensiveQuantities cfg = true
  · have hup : getEntry (resizeAndResetIntensiveQuantitiesCache cfg dflt
        (shiftIntensiveQuantityCache cfg s 1) n).upToDate timeIdx globalIdx false
        = false := by
      rw [resizeAndResetIntensiveQuantitiesCache, if_pos hstore]
      exact resize_validity_fold_false _ _ _ _ _ ht
    simp [cachedIntensiveQuantities, hup]
  · have hcache : cfg.enableIntensiveQuantitiesCache = false := by
      rcases Bool.eq_false_or_eq_true cfg.enableIntensiveQuantitiesCache with hb | hb
      · exact absurd (by simp [storeIntensiveQuantities, hb]) hstore
      · exact hb
    simp [cachedIntensiveQuantities, hcache]

/-- Witness for C7: on a 2-slot, 1-DOF system with both entries valid, the
shift-then-resize sequence makes the slot-0 read miss. -/
theorem cachedIntensiveQuantities_miss_after_shift_resize_witness :
    0 < (⟨true, true, 2⟩ : CacheConfig).historySize ∧
    cachedIntensiveQuantities ⟨true, true, 2⟩
      (resizeAndResetIntensiveQuantitiesCache ⟨true, true, 2⟩ (0 : ℚ)
        (shiftIntensiveQuantityCache ⟨true, true, 2⟩
          (⟨[[7], [8]], [[true], [true]]⟩ : IntensiveQuantityCacheState ℚ) 1) 1)
      0 0 = none :=
  ⟨by decide,
   cachedIntensiveQuantities_miss_after_shift_resize ⟨true, true, 2⟩ 0
     ⟨[[7], [8]], [[true], [true]]⟩ 1 0 0 (by decide)⟩

/-- C8: with the cache and the thermodynamic hints enabled (history size
2), for a DOF index within the allocated slot-0 vectors: after
`updateCachedIntensiveQuantities(V, dof, 0)`, `cachedIntensiveQuantities(dof, 0)`
returns V; after a subsequent
`setIntensiveQuantitiesCacheEntryValidity(dof, 0, false)` the same read
misses, while `thermodynamicHint(dof, 0)` still returns the slot-1 value
whenever slot 1's entry for that DOF is valid. -/
theorem cachedIntensiveQuantities_update_invalidate_hint {V : Type}
    (cfg : CacheConfig) (s : IntensiveQuantityCacheState V) (v : V) (dof : Nat)
    (hcache : cfg.enableIntensiveQuantitiesCache = true)
    (hhints : cfg.enableThermodynamicHints = true)
    (hhist : cfg.historySize = 2)
    (hu0 : 0 < s.upToDate.length)
    (hurow : dof < (s.upToDate.getD 0 []).length)
    (hc0 : 0 < s.cache.length)
    (hcrow : dof < (s.cache.getD 0 []).length) :
    cachedIntensiveQuantities cfg
      (updateCachedIntensiveQuantities cfg s v dof 0) dof 0 = some v ∧
    cachedIntensiveQuantities cfg
      (setIntensiveQuantitiesCacheEntryValidity cfg
        (updateCachedIntensiveQuantities cfg s v dof 0) dof 0 false) dof 0 = none ∧
    (getEntry s.upToDate 1 dof false = true →
      thermodynamicHint cfg
        (setIntensiveQuantitiesCacheEntryValidity cfg
          (updateCachedIntensiveQuantities cfg s v dof 0) dof 0 false) dof 0
        = (s.cache.getD 1 []).get? dof) := by
  have hstore : storeIntensiveQuantities cfg = true := by
    simp [storeIntensiveQuantities, hcache]
  have hup1 : (updateCachedIntensiveQuantities cfg s v dof 0).upToDate =
      setEntry s.upToDate 0 dof true := by
    simp [updateCachedIntensiveQuantities, hstore]
  have hca1 : (updateCachedIntensiveQuantities cfg s v dof 0).cache =
      setEntry s.cache 0 dof v := by
    simp [updateCachedIntensiveQuantities, hstore]
  have hup2 : (setIntensiveQuantitiesCacheEntryValidity cfg
      (updateCachedIntensiveQuantities cfg s v dof 0) dof 0 false).upToDate =
      setEntry (setEntry s.upToDate 0 dof true) 0 dof false := by
    simp [setIntensiveQuantitiesCacheEntryValidity, hstore, hup1]
  have hca2 : (setIntensiveQuantitiesCacheEntryValidity cfg
      (updateCachedIntensiveQuantities cfg s v dof 0) dof 0 false).cache =
      setEntry s.cache 0 dof v := by
    simp [setIntensiveQuantitiesCacheEntryValidity, hstore, hca1]
  have hread1 : getEntry (setEntry s.upToDate 0 dof true) 0 dof false = true := by
    unfold getEntry setEntry
    rw [getD_set_self _ _ _ _ hu0, getD_set_self _ _ _ _ hurow]
  have hread2 : getEntry (setEntry (setEntry s.upToDate 0 dof true) 0 dof false)
      0 dof false = false := by
    unfold getEntry setEntry
    rw [getD_set_self _ _ _ _ (by rw [List.length_set]; exact hu0)]
    rw [getD_set_self _ _ _ _ (by rw [getD_set_self _ _ _ _ hu0, List.length_set]; exact hurow)]
  have hval1 : ((setEntry s.cache 0 dof v).getD 0 []).get? dof = some v := by
    unfold setEntry
    rw [getD_set_self _ _ _ _ hc0, get?_set_self _ _ _ hcrow]
  refine ⟨?_, ?_, ?_⟩
  · unfold cachedIntensiveQuantities
    rw [hup1, hread1, hca1, hcache]
    simpa using hval1
  · unfold cachedIntensiveQuantities
    rw [hup2, hread2]
    simp
  · intro hvalid1
    have hslot1up : getEntry (setEntry (setEntry s.upToDate 0 dof true) 0 dof false)
        1 dof false = getEntry s.upToDate 1 dof false := by
      unfold getEntry setEntry
      rw [getD_set_ne _ 0 1 _ _ (by omega), getD_set_ne _ 0 1 _ _ (by omega)]
    have hslot1val : ((setEntry s.cache 0 dof v).getD 1 []).get? dof =
        (s.cache.getD 1 []).get? dof := by
      unfold setEntry
      rw [getD_set_ne _ 0 1 _ _ (by omega)]
    unfold thermodynamicHint
    rw [hup2, hca2, hhints, hhist]
    simp only [Bool.not_true, Bool.false_eq_true, if_false, hread2]
    have hfind : (List.range 2).find?
        (fun timeIdx2 => getEntry (setEntry (setEntry s.upToDate 0 dof true) 0 dof false)
          timeIdx2 dof false) = some 1 := by
      have hr : List.range 2 = [0, 1] := by decide
      rw [hr]
      simp [List.find?, hread2, hslot1up, hvalid1]
    rw [hfind]
    exact hslot1val

/-- Witness for C8: on a 2-slot cache holding value 9 validly in slot 1,
storing 5 at slot 0 makes the cached read return 5; after invalidating the
slot-0 entry the cached read misses while the hint still returns 9 from
slot 1. -/
theorem cachedIntensiveQuantities_update_invalidate_hint_witness :
    getEntry (⟨[[(1 : ℚ)], [9]], [[false], [true]]⟩ :
      IntensiveQuantityCacheState ℚ).upToDate 1 0 false = true ∧
    cachedIntensiveQuantities ⟨true, true, 2⟩
      (updateCachedIntensiveQuantities ⟨true, true, 2⟩
        (⟨[[(1 : ℚ)], [9]], [[false], [true]]⟩ : IntensiveQuantityCacheState ℚ)
        5 0 0) 0 0 = some 5 ∧
    cachedIntensiveQuantities ⟨true, true, 2⟩
      (setIntensiveQuantitiesCacheEntryValidity ⟨true, true, 2⟩
        (updateCachedIntensiveQuantities ⟨true, true, 2⟩
          (⟨[[(1 : ℚ)], [9]], [[false], [true]]⟩ : IntensiveQuantityCacheState ℚ)
          5 0 0) 0 0 false) 0 0 = none ∧
    thermodynamicHint ⟨true, true, 2⟩
      (setIntensiveQuantitiesCacheEntryValidity ⟨true, true, 2⟩
        (updateCachedIntensiveQuantities ⟨true, true, 2⟩
          (⟨[[(1 : ℚ)], [9]], [[false], [true]]⟩ : IntensiveQuantityCacheState ℚ)
          5 0 0) 0 0 false) 0 0 = some 9 := by
  have h := cachedIntensiveQuantities_update_invalidate_hint ⟨true, true, 2⟩
    (⟨[[(1 : ℚ)], [9]], [[false], [true]]⟩ : IntensiveQuantityCacheState ℚ)
    5 0 rfl rfl rfl (by decide) (by decide) (by decide) (by decide)
  exact ⟨by decide, h.1, h.2.1, (h.2.2 (by decide)).trans rfl⟩

/-- Helper: folding with a skip guard equals folding over the filtered
list. -/
theorem foldl_guard_eq_foldl_filter {A B : Type} (p : A → Bool) (f : B → A → B)
    (l : List A) (init : B) :
    l.foldl (fun acc x => if p x then f acc x else acc) init =
      (l.filter p).foldl f init := by
  induction l generalizing init with
  | nil => rfl
  | cons x xs ih =>
    by_cases h : p x = true
    · rw [List.foldl_cons, if_pos h, List.filter_cons, if_pos h, List.foldl_cons]
      exact ih (f init x)
    · rw [List.foldl_cons, if_neg h, List.filter_cons, if_neg h]
      exact ih init

/-- C9: each assembly pass first zeroes its output residual vector and
skips every non-interior (ghost/overlap) element, so the assembled result
is the same for every prior content of the output vector (of the right
size) and equals exactly the additive accumulation, starting from the zero
vector, of the interior elements' local residual contributions. -/
theorem globalResidualAssemble_spec (elems : List AssemblyElement) (d1 d2 : List ℚ)
    (hlen : d1.length = d2.length) :
    globalResidualAssemble elems d1 = globalResidualAssemble elems d2 ∧
    globalResidualAssemble elems d1 =
      (elems.filter (fun e => e.interior)).foldl
        (fun d e => addElementContribs d e.contribs)
        (List.replicate d1.length 0) := by
  constructor
  · unfold globalResidualAssemble
    rw [List.map_const', List.map_const', hlen]
  · unfold globalResidualAssemble
    rw [List.map_const']
    exact foldl_guard_eq_foldl_filter _ _ elems _

/-- Witness for C9: a ghost element is ignored and two different prior
contents of a length-2 output vector give the same assembled result. -/
theorem globalResidualAssemble_spec_witness :
    ([(1 : ℚ), 2] : List ℚ).length = ([(5 : ℚ), 7] : List ℚ).length ∧
    globalResidualAssemble
      [⟨true, [(0, 3)]⟩, ⟨false, [(1, 100)]⟩, ⟨true, [(0, 1), (1, 4)]⟩]
      [(1 : ℚ), 2] =
    globalResidualAssemble
      [⟨true, [(0, 3)]⟩, ⟨false, [(1, 100)]⟩, ⟨true, [(0, 1), (1, 4)]⟩]
      [(5 : ℚ), 7] :=
  ⟨rfl,
   (globalResidualAssemble_spec
     [⟨true, [(0, 3)]⟩, ⟨false, [(1, 100)]⟩, ⟨true, [(0, 1), (1, 4)]⟩]
     [(1 : ℚ), 2] [(5 : ℚ), 7] rfl).1⟩

/-- C1 (amended): the square of the scalar returned by `globalResidual`
equals the sum, over all DOFs, of the reduced residual value squared times
the number of processes holding that DOF — border DOFs are counted once
per sharing process, exactly as the source's own comment concedes.  When
every DOF lives on exactly one process (in particular in any
single-partition run) this coincides with the Euclidean norm (squared) of
the reduced residual. -/
theorem globalResidualNormSq_eq_multiplicity_sum (R : DistributedResidual) :
    globalResidualNormSq R =
      ∑ d in Finset.range R.numDofs,
        (dofMultiplicity R d : ℚ) * (reducedResidual R d) ^ 2 ∧
    ((∀ d, d < R.numDofs → dofMultiplicity R d = 1) →
      globalResidualNormSq R = reducedEuclideanNormSq R) := by
  have hmain : globalResidualNormSq R =
      ∑ d in Finset.range R.numDofs,
        (dofMultiplicity R d : ℚ) * (reducedResidual R d) ^ 2 := by
    unfold globalResidualNormSq processTwoNorm2
    rw [Finset.sum_comm]
    refine Finset.sum_congr rfl (fun d _ => ?_)
    rw [← Finset.sum_filter, Finset.sum_const, dofMultiplicity, nsmul_eq_mul]
  refine ⟨hmain, fun h => ?_⟩
  rw [hmain]
  unfold reducedEuclideanNormSq
  refine Finset.sum_congr rfl (fun d hd => ?_)
  rw [h d (Finset.mem_range.mp hd)]
  norm_num

/-- Witness for C1: a single-partition run over one DOF with reduced value
1 has every multiplicity 1, and its returned squared norm equals the
reduced Euclidean squared norm. -/
theorem globalResidualNormSq_eq_multiplicity_sum_witness :
    (∀ d, d < (DistributedResidual.mk 1 1 (fun _ _ => true) (fun _ _ => 1)).numDofs →
      dofMultiplicity (DistributedResidual.mk 1 1 (fun _ _ => true) (fun _ _ => 1)) d = 1) ∧
    globalResidualNormSq (DistributedResidual.mk 1 1 (fun _ _ => true) (fun _ _ => 1)) =
      reducedEuclideanNormSq (DistributedResidual.mk 1 1 (fun _ _ => true) (fun _ _ => 1)) := by
  have h : ∀ d, d < (DistributedResidual.mk 1 1 (fun _ _ => true) (fun _ _ => 1)).numDofs →
      dofMultiplicity (DistributedResidual.mk 1 1 (fun _ _ => true) (fun _ _ => 1)) d = 1 := by
    intro d hd
    have hd0 : d = 0 := by
      have : d < 1 := hd
      omega
    subst hd0
    rfl
  exact ⟨h,
    (globalResidualNormSq_eq_multiplicity_sum
      (DistributedResidual.mk 1 1 (fun _ _ => true) (fun _ _ => 1))).2 h⟩

/-- C1 counterexample: two processes sharing one border DOF, each
contributing 1/2, give a reduced residual of 1; the code's cross-process
sum of squared process norms is 2, while the Euclidean norm (squared) of
the reduced residual is 1, and a single-partition run of the same reduced
residual returns 1 — the border DOF is counted once per sharing process,
so the multi-partition result differs from the single-partition result by
a factor not attributable to summation order. -/
theorem globalResidualNormSq_double_counts_border :
    reducedResidual (DistributedResidual.mk 2 1 (fun _ _ => true) (fun _ _ => 1/2)) 0 =
      reducedResidual (DistributedResidual.mk 1 1 (fun _ _ => true) (fun _ _ => 1)) 0 ∧
    globalResidualNormSq (DistributedResidual.mk 2 1 (fun _ _ => true) (fun _ _ => 1/2)) = 2 ∧
    reducedEuclideanNormSq (DistributedResidual.mk 2 1 (fun _ _ => true) (fun _ _ => 1/2)) = 1 ∧
    globalResidualNormSq (DistributedResidual.mk 1 1 (fun _ _ => true) (fun _ _ => 1)) = 1 := by
  norm_num [globalResidualNormSq, processTwoNorm2, reducedEuclideanNormSq,
    reducedResidual, Finset.sum_range_succ]
